import Mathlib

/-!
Shallow embedding of the `mudlet-mapsnap` Mudlet map decoder
(packages `pkg/mapparser`: `reader.go`, `parser.go`, `types.go`, `utils.go`)
together with theorems settling the specification claims.

Modelling conventions:
* A byte is `Fin 256`; the stream state is the list of not-yet-consumed bytes
  (the `bufio.Reader` is forward-only, so the suffix list is the whole state).
  The `pos` field of `BinaryReader` is documented in the source as
  "approximate position for debugging; not strictly maintained" and is not
  consulted by any decoder, so it is not modelled.
* `float64` values are kept as their 8-byte big-endian bit pattern (a `Nat`);
  no decoder inspects the numeric value of a double.
* Go strings decoded from UTF-16 are modelled as their list of 16-bit code
  units (`List (Fin 65536)`); `utf16.Decode`'s surrogate pairing only changes
  the in-memory text, never the byte consumption, and no decoder inspects
  string contents beyond length and a one-unit prefix strip.
* Go maps are modelled as association lists with insert-or-replace update
  (`upsert`) and key lookup (`alookup`); iteration order of a Go map is
  unspecified, so all theorems about map contents are membership statements.
* Fallible Go functions returning `(T, error)` are modelled with `Except`.
  The sections of `parser.parse` mutate the shared `p.m` object, so they are
  modelled as state-passing functions returning `MudletMap × Bytes × Option Err`:
  on an error the so-far-assembled map is preserved, exactly as `p.m` is in Go.
  (Inside a single failed entity the Go code can leave a partially written
  object behind a pointer; that partial object is never returned to a caller,
  and the model keeps the entity unmodified in that case.)
-/

namespace Mudlet

/-- A single byte of the input stream. -/
abbrev Byte := Fin 256

/-- The not-yet-consumed suffix of the input stream. -/
abbrev Bytes := List Byte

/-- A decoded Qt string, as its list of UTF-16 code units. -/
abbrev QStr := List (Fin 65536)

/-- Parse errors produced by the reader and the parser.  `truncated` stands for
the `io` errors Go's `binary.Read`/`ReadByte` return when too few bytes remain;
`invalidQStringLength` is the `"invalid QString byte length: %d"` error of
`ReadQString`; `ctx` is `fmt.Errorf("label: %w", err)` wrapping. -/
inductive Err where
  | truncated
  | invalidQStringLength (n : Nat)
  | ctx (label : String) (e : Err)
deriving DecidableEq

/-- `BinaryReader.ReadByte`. -/
def ReadByte : Bytes → Except Err (Byte × Bytes)
  | [] => .error .truncated
  | b :: rest => .ok (b, rest)

/-- `BinaryReader.ReadInt8` (two's-complement reinterpretation of one byte). -/
def ReadInt8 (s : Bytes) : Except Err (Int × Bytes) :=
  match ReadByte s with
  | .error e => .error e
  | .ok (b, rest) => .ok (if b.val < 128 then (b.val : Int) else (b.val : Int) - 256, rest)

/-- `BinaryReader.ReadUInt16` (big endian). -/
def ReadUInt16 : Bytes → Except Err (Nat × Bytes)
  | b0 :: b1 :: rest => .ok (b0.val * 256 + b1.val, rest)
  | _ => .error .truncated

/-- `BinaryReader.ReadUInt32` (big endian). -/
def ReadUInt32 : Bytes → Except Err (Nat × Bytes)
  | b0 :: b1 :: b2 :: b3 :: rest =>
      .ok (b0.val * 16777216 + b1.val * 65536 + b2.val * 256 + b3.val, rest)
  | _ => .error .truncated

/-- Reinterpret an unsigned 32-bit value as a signed `int32`. -/
def toInt32 (n : Nat) : Int :=
  if n < 2147483648 then (n : Int) else (n : Int) - 4294967296

/-- `BinaryReader.ReadInt32` (big endian, two's complement). -/
def ReadInt32 (s : Bytes) : Except Err (Int × Bytes) :=
  match ReadUInt32 s with
  | .error e => .error e
  | .ok (n, rest) => .ok (toInt32 n, rest)

/-- `BinaryReader.ReadBool` (one byte, zero = false, nonzero = true). -/
def ReadBool (s : Bytes) : Except Err (Bool × Bytes) :=
  match ReadByte s with
  | .error e => .error e
  | .ok (b, rest) => .ok (decide (b.val ≠ 0), rest)

/-- `BinaryReader.ReadDouble`: 8 bytes big endian; the IEEE754 bit pattern is
kept as a `Nat` (`math.Float64frombits` is a bit-preserving reinterpretation
and no decoder inspects the numeric value). -/
def ReadDouble : Bytes → Except Err (Nat × Bytes)
  | b0 :: b1 :: b2 :: b3 :: b4 :: b5 :: b6 :: b7 :: rest =>
      .ok (((((((b0.val * 256 + b1.val) * 256 + b2.val) * 256 + b3.val) * 256 + b4.val) * 256
        + b5.val) * 256 + b6.val) * 256 + b7.val, rest)
  | _ => .error .truncated

/-- Group a byte list into big-endian 16-bit code units (`[]uint16` read by
`binary.Read` in `ReadQString`); a trailing odd byte is ignored, which never
happens on the even-length payloads `ReadQString` feeds in. -/
def utf16Units : Bytes → QStr
  | b0 :: b1 :: rest =>
      ⟨b0.val * 256 + b1.val, by have h0 := b0.isLt; have h1 := b1.isLt; omega⟩ :: utf16Units rest
  | _ => []

/-- `BinaryReader.ReadQString`: 4-byte length prefix; `0xFFFFFFFF` is the
absent-string sentinel; otherwise the length must be even and at most
10,000,000 or the call fails; then that many bytes of UTF-16BE data follow. -/
def ReadQString (s : Bytes) : Except Err (QStr × Bytes) :=
  match ReadUInt32 s with
  | .error e => .error e
  | .ok (n, s1) =>
    if n = 4294967295 then .ok ([], s1)
    else if n % 2 ≠ 0 ∨ n > 10000000 then .error (.invalidQStringLength n)
    else if n ≤ s1.length then .ok (utf16Units (s1.take n), s1.drop n)
    else .error .truncated

/-- Association-list lookup, modelling Go map indexing `m[k]`. -/
def alookup {κ α : Type} [DecidableEq κ] (l : List (κ × α)) (key : κ) : Option α :=
  (l.find? (fun p => decide (p.1 = key))).map (fun p => p.2)

/-- Association-list insert-or-replace, modelling Go map assignment `m[k] = v`. -/
def upsert {κ α : Type} [DecidableEq κ] (l : List (κ × α)) (key : κ) (val : α) :
    List (κ × α) :=
  if l.any (fun p => decide (p.1 = key)) then
    l.map (fun p => if p.1 = key then (key, val) else p)
  else l ++ [(key, val)]

/-- `NoExit` — the sentinel for "no exit in this direction" (`const NoExit int32 = -1`). -/
def NoExit : Int := -1

/-- `ExitDirectionNames` — direction name for each of the 12 exit slots. -/
def ExitDirectionNames : List String :=
  ["north", "northeast", "east", "southeast",
   "south", "southwest", "west", "northwest",
   "up", "down", "in", "out"]

/-- Qt `QColor` as decoded by `parser.readQColor` (`types.go` `Color`). -/
structure Color where
  Spec : Int := 0
  Red : Nat := 0
  Green : Nat := 0
  Blue : Nat := 0
  Alpha : Nat := 0
  Pad : Nat := 0
deriving DecidableEq

/-- Qt `QFont` as decoded by `parser.readQFont` (`types.go` `Font`).
Doubles are bit patterns; `FixedPitch` is skipped by the decoder and stays
at its zero value. -/
structure Font where
  Family : QStr := []
  StyleHint : QStr := []
  PointSizeF : Nat := 0
  PixelSize : Int := 0
  StyleStrategy : Int := 0
  Weight : Nat := 0
  Style : Nat := 0
  Underline : Bool := false
  StrikeOut : Bool := false
  FixedPitch : Bool := false
  Capitalization : Int := 0
  LetterSpacing : Int := 0
  WordSpacing : Int := 0
  Stretch : Int := 0
  HintingPreference : Int := 0
deriving DecidableEq

/-- Qt `QVector3D` (three doubles, kept as bit patterns). -/
structure Vector3D where
  X : Nat := 0
  Y : Nat := 0
  Z : Nat := 0
deriving DecidableEq

/-- Qt `QPointF` (two doubles, kept as bit patterns). -/
structure Point2D where
  X : Nat := 0
  Y : Nat := 0
deriving DecidableEq

/-- `types.go` `BoundingBox3D`. -/
structure BoundingBox3D where
  MinX : Int := 0
  MinY : Int := 0
  MinZ : Int := 0
  MaxX : Int := 0
  MaxY : Int := 0
  MaxZ : Int := 0
deriving DecidableEq

/-- `types.go` `AreaExit`. -/
structure AreaExit where
  RoomID : Int := 0
  DestRoomID : Int := 0
  Direction : Int := 0
deriving DecidableEq

/-- `types.go` `MudletLabel`.  `Pixmap` is `none` for Go's nil byte slice. -/
structure MudletLabel where
  ID : Int := 0
  Pos : Vector3D := {}
  Width : Nat := 0
  Height : Nat := 0
  Text : QStr := []
  FgColor : Color := {}
  BgColor : Color := {}
  Pixmap : Option Bytes := none
  NoScaling : Bool := false
  ShowOnTop : Bool := false
deriving DecidableEq

/-- `types.go` `MudletArea`. -/
structure MudletArea where
  ID : Int
  Name : QStr
  Rooms : List Nat := []
  ZLevels : List Int := []
  AreaExits : List AreaExit := []
  GridMode : Bool := false
  Bounds : BoundingBox3D := {}
  Span : Vector3D := {}
  XMaxForZ : List (Int × Int) := []
  YMaxForZ : List (Int × Int) := []
  XMinForZ : List (Int × Int) := []
  YMinForZ : List (Int × Int) := []
  Pos : Vector3D := {}
  IsZone : Bool := false
  ZoneAreaRef : Int := 0
  Last2DMapZoom : Nat := 0
  UserData : List (QStr × QStr) := []
  Labels : List MudletLabel := []
deriving DecidableEq

/-- `types.go` `MudletRoom`.  `Exits` is the fixed 12-slot array, modelled as a
list that construction keeps at length 12. -/
structure MudletRoom where
  ID : Int
  Area : Int := 0
  X : Int := 0
  Y : Int := 0
  Z : Int := 0
  Exits : List Int := []
  Environment : Int := 0
  Weight : Int := 0
  Name : QStr := []
  IsLocked : Bool := false
  SpecialExits : List (QStr × Int) := []
  Symbol : QStr := []
  SymbolColor : Option Color := none
  UserData : List (QStr × QStr) := []
  CustomLines : List (QStr × List Point2D) := []
  CustomLinesArrow : List (QStr × Bool) := []
  CustomLinesColor : List (QStr × Color) := []
  CustomLinesStyle : List (QStr × Int) := []
  SpecialExitLocks : List QStr := []
  ExitLocks : List Int := []
  ExitStubs : List Int := []
  ExitWeights : List (QStr × Int) := []
  Doors : List (QStr × Int) := []
deriving DecidableEq

/-- `types.go` `MudletMap` (also aliased as `Map`). -/
structure MudletMap where
  Version : Int := 0
  EnvColors : List (Int × Int) := []
  CustomEnvColors : List (Int × Color) := []
  RoomDbHashToRoomId : List (QStr × Nat) := []
  RoomIdHash : List (QStr × Int) := []
  UserData : List (QStr × QStr) := []
  MapSymbolFont : Font := {}
  MapFontFudgeFactor : Nat := 0
  UseOnlyMapFont : Bool := false
  Areas : List (Int × MudletArea) := []
  Rooms : List (Int × MudletRoom) := []
  Labels : List (Int × List MudletLabel) := []
deriving DecidableEq

/-- `NewMudletMap` — fresh empty map. -/
def NewMudletMap : MudletMap := {}

/-- `NewMudletArea` — fresh area with the given id and name. -/
def NewMudletArea (id : Int) (name : QStr) : MudletArea :=
  { ID := id, Name := name }

/-- `NewMudletRoom` — fresh room: weight 1, all 12 exits set to `NoExit`. -/
def NewMudletRoom (id : Int) : MudletRoom :=
  { ID := id, Weight := 1, Exits := List.replicate 12 NoExit }

/-- `MudletRoom.GetExit` — destination room id for a direction, `NoExit` when
the direction is out of range. -/
def MudletRoom.GetExit (r : MudletRoom) (direction : Int) : Int :=
  if direction < 0 ∨ direction ≥ 12 then NoExit
  else r.Exits.getD direction.toNat NoExit

/-- `MudletMap.GetLabelsForArea` — area-owned labels when the area exists and
its list is non-empty, else the map-level `Labels` entry (Go returns the nil
slice when the key is missing, modelled as `[]`). -/
def MudletMap.GetLabelsForArea (m : MudletMap) (areaID : Int) : List MudletLabel :=
  match alookup m.Areas areaID with
  | some area =>
      if area.Labels.length > 0 then area.Labels
      else (alookup m.Labels areaID).getD []
  | none => (alookup m.Labels areaID).getD []

/-- `types.go` `ValidationError`; the Go field `Type` is `Etype` here because
`Type` is a Lean keyword. -/
structure ValidationError where
  Etype : String
  Message : String
  RoomID : Int := 0
deriving DecidableEq

/-- `utils.go` `ValidateMap` on a (non-nil) map value: reports a non-positive
version and every non-sentinel exit whose target room is missing.  Go iterates
a map in unspecified order; the list order here is the room-list order, and all
theorems only use membership. -/
def ValidateMap (m : MudletMap) : List ValidationError :=
  (if m.Version ≤ 0 then
    [{ Etype := "invalid_version",
       Message := "non-positive version: " ++ toString m.Version }]
   else []) ++
  ((m.Rooms.map (fun rkv =>
    (rkv.2.Exits.enum.filterMap (fun ie =>
      if ie.2 ≠ NoExit ∧ alookup m.Rooms ie.2 = none then
        some { Etype := "broken_exit",
               Message := "room " ++ toString rkv.2.ID ++ " has "
                 ++ ExitDirectionNames.getD ie.1 "" ++ " exit to missing room "
                 ++ toString ie.2,
               RoomID := rkv.2.ID }
      else none)))).flatten)

/-- `parser.readQColor`. -/
def readQColor (s : Bytes) : Except Err (Color × Bytes) := do
  let (spec, s) ← ReadInt8 s
  let (alpha, s) ← ReadUInt16 s
  let (red, s) ← ReadUInt16 s
  let (green, s) ← ReadUInt16 s
  let (blue, s) ← ReadUInt16 s
  let (pad, s) ← ReadUInt16 s
  pure ({ Spec := spec, Alpha := alpha, Red := red, Green := green, Blue := blue, Pad := pad }, s)

/-- `parser.readQFont` (the `fixedPitch` uint16 is read and discarded). -/
def readQFont (s : Bytes) : Except Err (Font × Bytes) := do
  let (family, s) ← ReadQString s
  let (styleHint, s) ← ReadQString s
  let (pointSizeF, s) ← ReadDouble s
  let (pixelSize, s) ← ReadInt32 s
  let (styleStrategy, s) ← ReadInt8 s
  let (weight, s) ← ReadUInt16 s
  let (style, s) ← ReadByte s
  let (underline, s) ← ReadInt8 s
  let (strikeOut, s) ← ReadInt8 s
  let (_, s) ← ReadUInt16 s
  let (capitalization, s) ← ReadInt8 s
  let (letterSpacing, s) ← ReadInt32 s
  let (wordSpacing, s) ← ReadInt32 s
  let (stretch, s) ← ReadInt8 s
  let (hintingPreference, s) ← ReadInt8 s
  pure ({ Family := family, StyleHint := styleHint, PointSizeF := pointSizeF,
          PixelSize := pixelSize, StyleStrategy := styleStrategy, Weight := weight,
          Style := style.val, Underline := underline ≠ 0, StrikeOut := strikeOut ≠ 0,
          Capitalization := capitalization, LetterSpacing := letterSpacing,
          WordSpacing := wordSpacing, Stretch := stretch,
          HintingPreference := hintingPreference }, s)

/-- `parser.readQVector3D`. -/
def readQVector3D (s : Bytes) : Except Err (Vector3D × Bytes) := do
  let (x, s) ← ReadDouble s
  let (y, s) ← ReadDouble s
  let (z, s) ← ReadDouble s
  pure ({ X := x, Y := y, Z := z }, s)

/-- Loop of `parser.readQMapIntInt`. -/
def readQMapIntIntLoop : Nat → List (Int × Int) → Bytes → Except Err (List (Int × Int) × Bytes)
  | 0, acc, s => .ok (acc, s)
  | k + 1, acc, s => do
    let (key, s) ← ReadInt32 s
    let (value, s) ← ReadInt32 s
    readQMapIntIntLoop k (upsert acc key value) s

/-- `parser.readQMapIntInt`. -/
def readQMapIntInt (s : Bytes) : Except Err (List (Int × Int) × Bytes) := do
  let (count, s) ← ReadInt32 s
  readQMapIntIntLoop count.toNat [] s

/-- Loop of `parser.readPNG`: scan byte-by-byte for the `IEND` marker, then
consume the marker and the 4 CRC bytes that follow.  The `Bool` is `true` on
success; on a short stream Go returns the partial buffer with a non-nil error,
modelled by `false` (callers discard the buffer in that case). -/
def readPNGAux : List Byte → Bytes → List Byte × Bytes × Bool
  | acc, b0 :: b1 :: b2 :: b3 :: rest =>
    if b0 = (0x49 : Byte) ∧ b1 = (0x45 : Byte) ∧ b2 = (0x4e : Byte) ∧ b3 = (0x44 : Byte) then
      if 4 ≤ rest.length then
        (acc ++ [b0, b1, b2, b3] ++ rest.take 4, rest.drop 4, true)
      else
        (acc ++ [b0, b1, b2, b3] ++ rest, [], false)
    else
      readPNGAux (acc ++ [b0]) (b1 :: b2 :: b3 :: rest)
  | acc, s => (acc, s, false)

/-- `parser.readPNG`: capture from the current position (the PNG signature)
through `IEND` plus CRC inclusive. -/
def readPNG (s : Bytes) : List Byte × Bytes × Bool := readPNGAux [] s

/-- `parser.readQPixmap`: consume the 4-byte QPixmap marker, peek for the PNG
signature and, when present, capture the embedded image; otherwise no image
and nothing beyond the marker is consumed. -/
def readQPixmap (s : Bytes) : Except Err (Option (List Byte) × Bytes) :=
  match ReadUInt32 s with
  | .error e => .error e
  | .ok (_, s) =>
    match s with
    | b0 :: b1 :: b2 :: b3 :: _ =>
      if b0.val * 16777216 + b1.val * 65536 + b2.val * 256 + b3.val = 0x89504e47 then
        match readPNG s with
        | (buf, rest, true) => .ok (some buf, rest)
        | (_, _, false) => .error .truncated
      else .ok (none, s)
    | _ => .ok (none, s)

/-- `parser.readLabel` (pre-v21 label shape, with the two unused doubles). -/
def readLabel (s : Bytes) : Except Err (MudletLabel × Bytes) := do
  let (id0, s) ← ReadInt32 s
  let (pos, s) ← readQVector3D s
  let (_, s) ← ReadDouble s
  let (_, s) ← ReadDouble s
  let (width, s) ← ReadDouble s
  let (height, s) ← ReadDouble s
  let (text, s) ← ReadQString s
  let (fg, s) ← readQColor s
  let (bg, s) ← readQColor s
  let (px, s) ← readQPixmap s
  let (noScaling, s) ← ReadBool s
  let (showOnTop, s) ← ReadBool s
  pure ({ ID := id0, Pos := pos, Width := width, Height := height, Text := text,
          FgColor := fg, BgColor := bg, Pixmap := px,
          NoScaling := noScaling, ShowOnTop := showOnTop }, s)

/-- `parser.readLabelV21` (id supplied by the caller, no dummy doubles). -/
def readLabelV21 (labelID : Int) (s : Bytes) : Except Err (MudletLabel × Bytes) := do
  let (pos, s) ← readQVector3D s
  let (width, s) ← ReadDouble s
  let (height, s) ← ReadDouble s
  let (text, s) ← ReadQString s
  let (fg, s) ← readQColor s
  let (bg, s) ← readQColor s
  let (px, s) ← readQPixmap s
  let (noScaling, s) ← ReadBool s
  let (showOnTop, s) ← ReadBool s
  pure ({ ID := labelID, Pos := pos, Width := width, Height := height, Text := text,
          FgColor := fg, BgColor := bg, Pixmap := px,
          NoScaling := noScaling, ShowOnTop := showOnTop }, s)

/-- Loop of `parser.readAreaLabels`. -/
def readAreaLabelsLoop : Nat → List MudletLabel → Bytes → Except Err (List MudletLabel × Bytes)
  | 0, acc, s => .ok (acc, s)
  | k + 1, acc, s => do
    let (labelID, s) ← ReadInt32 s
    let (label, s) ← readLabelV21 labelID s
    readAreaLabelsLoop k (acc ++ [label]) s

/-- `parser.readAreaLabels` (v21+ area-owned labels). -/
def readAreaLabels (area : MudletArea) (s : Bytes) : Except Err (MudletArea × Bytes) := do
  let (count, s) ← ReadInt32 s
  let (labels, s) ← readAreaLabelsLoop count.toNat [] s
  pure ({ area with Labels := labels }, s)

/-- Shared shape of the count-prefixed `int32` list loops
(`zLevels`, `exitLocks`, `exitStubs`, the 12 standard exits, RGB values). -/
def readInt32ListLoop : Nat → List Int → Bytes → Except Err (List Int × Bytes)
  | 0, acc, s => .ok (acc, s)
  | k + 1, acc, s => do
    let (v, s) ← ReadInt32 s
    readInt32ListLoop k (acc ++ [v]) s

/-- Loop of the `rooms: QSet<quint32>` field of `parser.readAreaData`. -/
def readAreaRoomsLoop : Nat → List Nat → Bytes → Except Err (List Nat × Bytes)
  | 0, acc, s => .ok (acc, s)
  | k + 1, acc, s => do
    let (roomID, s) ← ReadUInt32 s
    readAreaRoomsLoop k (acc ++ [roomID]) s

/-- Loop of the `mAreaExits` field of `parser.readAreaData`. -/
def readAreaExitsLoop : Nat → List AreaExit → Bytes → Except Err (List AreaExit × Bytes)
  | 0, acc, s => .ok (acc, s)
  | k + 1, acc, s => do
    let (roomID, s) ← ReadInt32 s
    let (destRoomID, s) ← ReadInt32 s
    let (direction, s) ← ReadInt32 s
    readAreaExitsLoop k (acc ++ [{ RoomID := roomID, DestRoomID := destRoomID,
                                   Direction := direction }]) s

/-- Shared shape of the `QMap<QString,QString>` user-data loops
(map-level, per-area and per-room `mUserData`). -/
def readQStrPairsLoop : Nat → List (QStr × QStr) → Bytes → Except Err (List (QStr × QStr) × Bytes)
  | 0, acc, s => .ok (acc, s)
  | k + 1, acc, s => do
    let (key, s) ← ReadQString s
    let (value, s) ← ReadQString s
    readQStrPairsLoop k (upsert acc key value) s

/-- `parser.readAreaData`: every per-area field in wire order, with the two
v21 gates (`mLast2DMapZoom` and area-owned labels). -/
def readAreaData (version : Int) (area : MudletArea) (s : Bytes) :
    Except Err (MudletArea × Bytes) := do
  let (roomCount, s) ← ReadInt32 s
  let (rooms, s) ← readAreaRoomsLoop roomCount.toNat [] s
  let (zLevelCount, s) ← ReadInt32 s
  let (zLevels, s) ← readInt32ListLoop zLevelCount.toNat [] s
  let (areaExitsCount, s) ← ReadInt32 s
  let (areaExits, s) ← readAreaExitsLoop areaExitsCount.toNat [] s
  let (gridMode, s) ← ReadBool s
  let (maxX, s) ← ReadInt32 s
  let (maxY, s) ← ReadInt32 s
  let (maxZ, s) ← ReadInt32 s
  let (minX, s) ← ReadInt32 s
  let (minY, s) ← ReadInt32 s
  let (minZ, s) ← ReadInt32 s
  let (span, s) ← readQVector3D s
  let (xMaxForZ, s) ← readQMapIntInt s
  let (yMaxForZ, s) ← readQMapIntInt s
  let (xMinForZ, s) ← readQMapIntInt s
  let (yMinForZ, s) ← readQMapIntInt s
  let (pos, s) ← readQVector3D s
  let (isZone, s) ← ReadBool s
  let (zoneAreaRef, s) ← ReadInt32 s
  let (zoom, s) ← if version ≥ 21 then ReadDouble s else pure (area.Last2DMapZoom, s)
  let (userDataCount, s) ← ReadInt32 s
  let (userData, s) ← readQStrPairsLoop userDataCount.toNat area.UserData s
  let area := { area with
    Rooms := rooms, ZLevels := zLevels, AreaExits := areaExits, GridMode := gridMode,
    Bounds := { MaxX := maxX, MaxY := maxY, MaxZ := maxZ,
                MinX := minX, MinY := minY, MinZ := minZ },
    Span := span, XMaxForZ := xMaxForZ, YMaxForZ := yMaxForZ,
    XMinForZ := xMinForZ, YMinForZ := yMinForZ, Pos := pos,
    IsZone := isZone, ZoneAreaRef := zoneAreaRef, Last2DMapZoom := zoom,
    UserData := userData }
  if version ≥ 21 then readAreaLabels area s else pure (area, s)

/-- The lock-prefix strip of `readSpecialExits` (v6–20): Go drops the first
byte of the command when `len(cmd) > 1`; for the ASCII commands this format
carries, that first byte is the first UTF-16 unit. -/
def stripLock (cmd : QStr) : QStr := if cmd.length > 1 then cmd.drop 1 else cmd

/-- Loop of `parser.readSpecialExits` for v21+: each entry is
`(commandString, destinationRoomId)` on the wire. -/
def readSpecialExitsNewLoop : Nat → MudletRoom → Bytes → Except Err (MudletRoom × Bytes)
  | 0, room, s => .ok (room, s)
  | k + 1, room, s =>
    match ReadQString s with
    | .error e => .error e
    | .ok (cmd, s) =>
      match ReadInt32 s with
      | .error e => .error e
      | .ok (destRoom, s) =>
        readSpecialExitsNewLoop k
          { room with SpecialExits := upsert room.SpecialExits cmd destRoom } s

/-- Loop of `parser.readSpecialExits` for v6–20: each entry is
`(destinationRoomId, commandString)` on the wire; the lock prefix is stripped
from the command before it is stored. -/
def readSpecialExitsOldLoop : Nat → MudletRoom → Bytes → Except Err (MudletRoom × Bytes)
  | 0, room, s => .ok (room, s)
  | k + 1, room, s =>
    match ReadInt32 s with
    | .error e => .error e
    | .ok (destRoom, s) =>
      match ReadQString s with
      | .error e => .error e
      | .ok (cmd, s) =>
        readSpecialExitsOldLoop k
          { room with SpecialExits := upsert room.SpecialExits (stripLock cmd) destRoom } s

/-- `parser.readSpecialExits`: absent below v6; `(dest, cmd)` wire entries from
v6; `(cmd, dest)` wire entries from v21. -/
def readSpecialExits (version : Int) (room : MudletRoom) (s : Bytes) :
    Except Err (MudletRoom × Bytes) :=
  if version ≥ 21 then
    match ReadInt32 s with
    | .error e => .error e
    | .ok (count, s) => readSpecialExitsNewLoop count.toNat room s
  else if version ≥ 6 then
    match ReadInt32 s with
    | .error e => .error e
    | .ok (count, s) => readSpecialExitsOldLoop count.toNat room s
  else .ok (room, s)

/-- `parser.readRoomSymbol`: full string from v19, one discarded byte from v9,
absent before. -/
def readRoomSymbol (version : Int) (room : MudletRoom) (s : Bytes) :
    Except Err (MudletRoom × Bytes) :=
  if version ≥ 19 then do
    let (symbol, s) ← ReadQString s
    pure ({ room with Symbol := symbol }, s)
  else if version ≥ 9 then do
    let (_, s) ← ReadByte s
    pure (room, s)
  else .ok (room, s)

/-- `parser.readRoomUserData`. -/
def readRoomUserData (room : MudletRoom) (s : Bytes) : Except Err (MudletRoom × Bytes) := do
  let (count, s) ← ReadInt32 s
  let (userData, s) ← readQStrPairsLoop count.toNat room.UserData s
  pure ({ room with UserData := userData }, s)

/-- Loop of the point list inside a custom-line entry. -/
def readPointsLoop : Nat → List Point2D → Bytes → Except Err (List Point2D × Bytes)
  | 0, acc, s => .ok (acc, s)
  | k + 1, acc, s => do
    let (x, s) ← ReadDouble s
    let (y, s) ← ReadDouble s
    readPointsLoop k (acc ++ [{ X := x, Y := y }]) s

/-- Loop of the `customLines` map (shared by the v20 and legacy shapes). -/
def readCustomLinesLoop : Nat → List (QStr × List Point2D) → Bytes →
    Except Err (List (QStr × List Point2D) × Bytes)
  | 0, acc, s => .ok (acc, s)
  | k + 1, acc, s => do
    let (dir, s) ← ReadQString s
    let (pointCount, s) ← ReadInt32 s
    let (points, s) ← readPointsLoop pointCount.toNat [] s
    readCustomLinesLoop k (upsert acc dir points) s

/-- Loop of the `customLinesArrow` map (shared by both shapes). -/
def readCustomLinesArrowLoop : Nat → List (QStr × Bool) → Bytes →
    Except Err (List (QStr × Bool) × Bytes)
  | 0, acc, s => .ok (acc, s)
  | k + 1, acc, s => do
    let (dir, s) ← ReadQString s
    let (arrow, s) ← ReadBool s
    readCustomLinesArrowLoop k (upsert acc dir arrow) s

/-- Loop of the v20 `customLinesColor` map (explicit `QColor` records). -/
def readCustomLinesColorLoopV20 : Nat → List (QStr × Color) → Bytes →
    Except Err (List (QStr × Color) × Bytes)
  | 0, acc, s => .ok (acc, s)
  | k + 1, acc, s => do
    let (dir, s) ← ReadQString s
    let (color, s) ← readQColor s
    readCustomLinesColorLoopV20 k (upsert acc dir color) s

/-- Shared shape of the `QMap<QString,int>` loops (`customLinesStyle` v20,
`exitWeights`, `doors`). -/
def readQStrIntMapLoop : Nat → List (QStr × Int) → Bytes →
    Except Err (List (QStr × Int) × Bytes)
  | 0, acc, s => .ok (acc, s)
  | k + 1, acc, s => do
    let (dir, s) ← ReadQString s
    let (v, s) ← ReadInt32 s
    readQStrIntMapLoop k (upsert acc dir v) s

/-- Loop of the v21 special-exit-locks list in `readRoomCustomLinesV20`. -/
def readSpecialExitLocksLoop : Nat → List QStr → Bytes → Except Err (List QStr × Bytes)
  | 0, acc, s => .ok (acc, s)
  | k + 1, acc, s => do
    let (lock, s) ← ReadQString s
    readSpecialExitLocksLoop k (acc ++ [lock]) s

/-- `parser.readRoomCustomLinesV20`. -/
def readRoomCustomLinesV20 (version : Int) (room : MudletRoom) (s : Bytes) :
    Except Err (MudletRoom × Bytes) := do
  let (count, s) ← ReadInt32 s
  let (customLines, s) ← readCustomLinesLoop count.toNat room.CustomLines s
  let (count, s) ← ReadInt32 s
  let (arrows, s) ← readCustomLinesArrowLoop count.toNat room.CustomLinesArrow s
  let (count, s) ← ReadInt32 s
  let (colors, s) ← readCustomLinesColorLoopV20 count.toNat room.CustomLinesColor s
  let (count, s) ← ReadInt32 s
  let (styles, s) ← readQStrIntMapLoop count.toNat room.CustomLinesStyle s
  let (specialExitLocks, s) ←
    if version ≥ 21 then do
      let (count, s) ← ReadInt32 s
      readSpecialExitLocksLoop count.toNat [] s
    else pure (room.SpecialExitLocks, s)
  let (count, s) ← ReadInt32 s
  let (exitLocks, s) ← readInt32ListLoop count.toNat [] s
  pure ({ room with
          CustomLines := customLines, CustomLinesArrow := arrows,
          CustomLinesColor := colors, CustomLinesStyle := styles,
          SpecialExitLocks := specialExitLocks, ExitLocks := exitLocks }, s)

/-- Loop of the legacy `customLinesColor` map: a count-prefixed `int` list per
direction; the first three values become R, G, B (missing ones stay 0) and any
extras are read and discarded.  Reading the whole list and projecting the
first three is byte-for-byte the Go pair of loops. -/
def readCustomLinesColorLoopOld : Nat → List (QStr × Color) → Bytes →
    Except Err (List (QStr × Color) × Bytes)
  | 0, acc, s => .ok (acc, s)
  | k + 1, acc, s => do
    let (dir, s) ← ReadQString s
    let (rgbCount, s) ← ReadInt32 s
    let (vals, s) ← readInt32ListLoop rgbCount.toNat [] s
    let r := vals.getD 0 0
    let g := vals.getD 1 0
    let b := vals.getD 2 0
    readCustomLinesColorLoopOld k
      (upsert acc dir
        { Red := (r % 256).toNat * 256, Green := (g % 256).toNat * 256,
          Blue := (b % 256).toNat * 256, Alpha := 0xFFFF }) s

/-- Loop of the legacy `customLinesStyle` map: both the key and the
string-encoded style are read and discarded. -/
def readCustomLinesStyleLoopOld : Nat → Bytes → Except Err (Unit × Bytes)
  | 0, s => .ok ((), s)
  | k + 1, s => do
    let (_, s) ← ReadQString s
    let (_, s) ← ReadQString s
    readCustomLinesStyleLoopOld k s

/-- `parser.readRoomCustomLinesOld` (below v20). -/
def readRoomCustomLinesOld (room : MudletRoom) (s : Bytes) :
    Except Err (MudletRoom × Bytes) := do
  let (count, s) ← ReadInt32 s
  let (customLines, s) ← readCustomLinesLoop count.toNat room.CustomLines s
  let (count, s) ← ReadInt32 s
  let (arrows, s) ← readCustomLinesArrowLoop count.toNat room.CustomLinesArrow s
  let (count, s) ← ReadInt32 s
  let (colors, s) ← readCustomLinesColorLoopOld count.toNat room.CustomLinesColor s
  let (count, s) ← ReadInt32 s
  let (_, s) ← readCustomLinesStyleLoopOld count.toNat s
  let (count, s) ← ReadInt32 s
  let (exitLocks, s) ← readInt32ListLoop count.toNat [] s
  pure ({ room with
          CustomLines := customLines, CustomLinesArrow := arrows,
          CustomLinesColor := colors, ExitLocks := exitLocks }, s)

/-- `parser.readRoomCustomLines`: structured shape from v20, legacy before. -/
def readRoomCustomLines (version : Int) (room : MudletRoom) (s : Bytes) :
    Except Err (MudletRoom × Bytes) :=
  if version ≥ 20 then readRoomCustomLinesV20 version room s
  else readRoomCustomLinesOld room s

/-- `parser.readExitStubs`. -/
def readExitStubs (room : MudletRoom) (s : Bytes) : Except Err (MudletRoom × Bytes) := do
  let (count, s) ← ReadInt32 s
  let (stubs, s) ← readInt32ListLoop count.toNat [] s
  pure ({ room with ExitStubs := stubs }, s)

/-- `parser.readExitWeightsAndDoors`. -/
def readExitWeightsAndDoors (room : MudletRoom) (s : Bytes) :
    Except Err (MudletRoom × Bytes) := do
  let (count, s) ← ReadInt32 s
  let (weights, s) ← readQStrIntMapLoop count.toNat room.ExitWeights s
  let (count, s) ← ReadInt32 s
  let (doors, s) ← readQStrIntMapLoop count.toNat room.Doors s
  pure ({ room with ExitWeights := weights, Doors := doors }, s)

/-- `parser.readRoom`: every per-room field in wire order with its version
gates (symbol color v21+, user data v10+, custom lines v11+, stubs v13+,
weights and doors v16+). -/
def readRoom (version : Int) (roomID : Int) (s : Bytes) :
    Except Err (MudletRoom × Bytes) := do
  let room := NewMudletRoom roomID
  let (area, s) ← ReadInt32 s
  let (x, s) ← ReadInt32 s
  let (y, s) ← ReadInt32 s
  let (z, s) ← ReadInt32 s
  let (exits, s) ← readInt32ListLoop 12 [] s
  let (environment, s) ← ReadInt32 s
  let (weight, s) ← ReadInt32 s
  let (name, s) ← ReadQString s
  let (isLocked, s) ← ReadBool s
  let room := { room with
                Area := area, X := x, Y := y, Z := z, Exits := exits,
                Environment := environment, Weight := weight, Name := name,
                IsLocked := isLocked }
  let (room, s) ← readSpecialExits version room s
  let (room, s) ← readRoomSymbol version room s
  let (room, s) ←
    if version ≥ 21 then do
      let (color, s) ← readQColor s
      pure ({ room with SymbolColor := some color }, s)
    else pure (room, s)
  let (room, s) ← if version ≥ 10 then readRoomUserData room s else pure (room, s)
  let (room, s) ← if version ≥ 11 then readRoomCustomLines version room s else pure (room, s)
  let (room, s) ← if version ≥ 13 then readExitStubs room s else pure (room, s)
  let (room, s) ← if version ≥ 16 then readExitWeightsAndDoors room s else pure (room, s)
  pure (room, s)

/-- Result of a section reader of `parser.parse`: the (possibly partially
updated) map `p.m`, the remaining stream, and the error if one occurred.  The
stream component after an error is never consulted (the parse aborts). -/
abbrev SectionResult := MudletMap × Bytes × Option Err

/-- Loop of `parser.readEnvColors`. -/
def readEnvColorsLoop : Nat → MudletMap → Bytes → SectionResult
  | 0, m, s => (m, s, none)
  | k + 1, m, s =>
    match ReadInt32 s with
    | .error e => (m, s, some e)
    | .ok (key, s) =>
      match ReadInt32 s with
      | .error e => (m, s, some e)
      | .ok (value, s) =>
        readEnvColorsLoop k { m with EnvColors := upsert m.EnvColors key value } s

/-- `parser.readEnvColors`. -/
def readEnvColors (m : MudletMap) (s : Bytes) : SectionResult :=
  match ReadInt32 s with
  | .error e => (m, s, some e)
  | .ok (count, s) => readEnvColorsLoop count.toNat m s

/-- Loop of `parser.readAreaNames`: each entry creates and stores a fresh
`MudletArea`. -/
def readAreaNamesLoop : Nat → MudletMap → Bytes → SectionResult
  | 0, m, s => (m, s, none)
  | k + 1, m, s =>
    match ReadInt32 s with
    | .error e => (m, s, some e)
    | .ok (id0, s) =>
      match ReadQString s with
      | .error e => (m, s, some e)
      | .ok (name, s) =>
        readAreaNamesLoop k { m with Areas := upsert m.Areas id0 (NewMudletArea id0 name) } s

/-- `parser.readAreaNames`. -/
def readAreaNames (m : MudletMap) (s : Bytes) : SectionResult :=
  match ReadInt32 s with
  | .error e => (m, s, some e)
  | .ok (count, s) => readAreaNamesLoop count.toNat m s

/-- Loop of `parser.readCustomEnvColors`. -/
def readCustomEnvColorsLoop : Nat → MudletMap → Bytes → SectionResult
  | 0, m, s => (m, s, none)
  | k + 1, m, s =>
    match ReadInt32 s with
    | .error e => (m, s, some e)
    | .ok (key, s) =>
      match readQColor s with
      | .error e => (m, s, some e)
      | .ok (color, s) =>
        readCustomEnvColorsLoop k
          { m with CustomEnvColors := upsert m.CustomEnvColors key color } s

/-- `parser.readCustomEnvColors`. -/
def readCustomEnvColors (m : MudletMap) (s : Bytes) : SectionResult :=
  match ReadInt32 s with
  | .error e => (m, s, some e)
  | .ok (count, s) => readCustomEnvColorsLoop count.toNat m s

/-- Loop of `parser.readRoomDbHashToRoomId`. -/
def readRoomDbHashToRoomIdLoop : Nat → MudletMap → Bytes → SectionResult
  | 0, m, s => (m, s, none)
  | k + 1, m, s =>
    match ReadQString s with
    | .error e => (m, s, some e)
    | .ok (key, s) =>
      match ReadUInt32 s with
      | .error e => (m, s, some e)
      | .ok (value, s) =>
        readRoomDbHashToRoomIdLoop k
          { m with RoomDbHashToRoomId := upsert m.RoomDbHashToRoomId key value } s

/-- `parser.readRoomDbHashToRoomId`. -/
def readRoomDbHashToRoomId (m : MudletMap) (s : Bytes) : SectionResult :=
  match ReadInt32 s with
  | .error e => (m, s, some e)
  | .ok (count, s) => readRoomDbHashToRoomIdLoop count.toNat m s

/-- Loop of `parser.readUserData` (map-level `mUserData`). -/
def readUserDataLoop : Nat → MudletMap → Bytes → SectionResult
  | 0, m, s => (m, s, none)
  | k + 1, m, s =>
    match ReadQString s with
    | .error e => (m, s, some e)
    | .ok (key, s) =>
      match ReadQString s with
      | .error e => (m, s, some e)
      | .ok (value, s) =>
        readUserDataLoop k { m with UserData := upsert m.UserData key value } s

/-- `parser.readUserData`. -/
def readUserData (m : MudletMap) (s : Bytes) : SectionResult :=
  match ReadInt32 s with
  | .error e => (m, s, some e)
  | .ok (count, s) => readUserDataLoop count.toNat m s

/-- Loop of `parser.readRoomIdHash`. -/
def readRoomIdHashLoop : Nat → MudletMap → Bytes → SectionResult
  | 0, m, s => (m, s, none)
  | k + 1, m, s =>
    match ReadQString s with
    | .error e => (m, s, some e)
    | .ok (key, s) =>
      match ReadInt32 s with
      | .error e => (m, s, some e)
      | .ok (value, s) =>
        readRoomIdHashLoop k { m with RoomIdHash := upsert m.RoomIdHash key value } s

/-- `parser.readRoomIdHash`. -/
def readRoomIdHash (m : MudletMap) (s : Bytes) : SectionResult :=
  match ReadInt32 s with
  | .error e => (m, s, some e)
  | .ok (count, s) => readRoomIdHashLoop count.toNat m s

/-- Loop of `parser.readAreas`: looks the area up (the name table usually
created it), creating and storing an empty one if absent, then decodes the
area body.  An error is wrapped with `"area %d"`. -/
def readAreasLoop : Nat → MudletMap → Bytes → SectionResult
  | 0, m, s => (m, s, none)
  | k + 1, m, s =>
    match ReadInt32 s with
    | .error e => (m, s, some e)
    | .ok (areaID, s) =>
      let area := (alookup m.Areas areaID).getD (NewMudletArea areaID [])
      let m := { m with Areas := upsert m.Areas areaID area }
      match readAreaData m.Version area s with
      | .error e => (m, s, some (.ctx ("area " ++ toString areaID) e))
      | .ok (area, s) =>
        readAreasLoop k { m with Areas := upsert m.Areas areaID area } s

/-- `parser.readAreas`. -/
def readAreas (m : MudletMap) (s : Bytes) : SectionResult :=
  match ReadInt32 s with
  | .error e => (m, s, some e)
  | .ok (count, s) => readAreasLoop count.toNat m s

/-- Inner loop of `parser.readLabels`: decode `labelCount` labels for one
area; the label index is part of the error context. -/
def readLabelsInnerLoop (areaID : Int) : Nat → Nat → List MudletLabel → Bytes →
    Except Err (List MudletLabel × Bytes)
  | 0, _, acc, s => .ok (acc, s)
  | k + 1, j, acc, s =>
    match readLabel s with
    | .error e =>
        .error (.ctx ("label " ++ toString j ++ " in area " ++ toString areaID) e)
    | .ok (label, s) => readLabelsInnerLoop areaID k (j + 1) (acc ++ [label]) s

/-- Outer loop of `parser.readLabels`: each entry is `(labelCount, areaID)`
followed by that many labels; the finished list is stored under the area id. -/
def readLabelsLoop : Nat → MudletMap → Bytes → SectionResult
  | 0, m, s => (m, s, none)
  | k + 1, m, s =>
    match ReadInt32 s with
    | .error e => (m, s, some e)
    | .ok (labelCount, s) =>
      match ReadInt32 s with
      | .error e => (m, s, some e)
      | .ok (areaID, s) =>
        match readLabelsInnerLoop areaID labelCount.toNat 0 [] s with
        | .error e => (m, s, some e)
        | .ok (labels, s) =>
          readLabelsLoop k { m with Labels := upsert m.Labels areaID labels } s

/-- `parser.readLabels` (map-level label table; called unconditionally). -/
def readLabels (m : MudletMap) (s : Bytes) : SectionResult :=
  match ReadInt32 s with
  | .error e => (m, s, some e)
  | .ok (count, s) => readLabelsLoop count.toNat m s

/-- Loop of `parser.readRooms`: peek for at least 4 bytes; if unavailable (or
the id read fails) stop normally; otherwise decode `(room id, room body)` and
store the room.  A body failure is wrapped with `"room %d"`.  The fuel is
`s.length + 1` at the entry point; every iteration consumes at least the
4 id bytes, so the fuel can never be exhausted. -/
def readRoomsLoop : Nat → MudletMap → Bytes → SectionResult
  | 0, m, s => (m, s, none)
  | k + 1, m, s =>
    if s.length < 4 then (m, s, none)
    else
      match ReadInt32 s with
      | .error _ => (m, s, none)
      | .ok (roomID, s1) =>
        match readRoom m.Version roomID s1 with
        | .error e => (m, s1, some (.ctx ("room " ++ toString roomID) e))
        | .ok (room, s2) =>
          readRoomsLoop k { m with Rooms := upsert m.Rooms roomID room } s2

/-- `parser.readRooms`: the Rooms section has no trailing count; it runs until
the stream is exhausted. -/
def readRooms (m : MudletMap) (s : Bytes) : SectionResult :=
  readRoomsLoop (s.length + 1) m s

/-- `parser.parse`: the fixed section order — version, global tables, font and
font settings, areas, room-id hash, labels, rooms — with each section's error
wrapped in the field name. -/
def parse (m : MudletMap) (s : Bytes) : SectionResult :=
  match ReadInt32 s with
  | .error e => (m, s, some (.ctx "version" e))
  | .ok (version, s) =>
  let m := { m with Version := version }
  match readEnvColors m s with
  | (m, s, some e) => (m, s, some (.ctx "envColors" e))
  | (m, s, none) =>
  match readAreaNames m s with
  | (m, s, some e) => (m, s, some (.ctx "areaNames" e))
  | (m, s, none) =>
  match readCustomEnvColors m s with
  | (m, s, some e) => (m, s, some (.ctx "mCustomEnvColors" e))
  | (m, s, none) =>
  match readRoomDbHashToRoomId m s with
  | (m, s, some e) => (m, s, some (.ctx "mpRoomDbHashToRoomId" e))
  | (m, s, none) =>
  match readUserData m s with
  | (m, s, some e) => (m, s, some (.ctx "mUserData" e))
  | (m, s, none) =>
  match readQFont s with
  | .error e => (m, s, some (.ctx "mapSymbolFont" e))
  | .ok (font, s) =>
  let m := { m with MapSymbolFont := font }
  match ReadDouble s with
  | .error e => (m, s, some (.ctx "mapFontFudgeFactor" e))
  | .ok (fudge, s) =>
  let m := { m with MapFontFudgeFactor := fudge }
  match ReadBool s with
  | .error e => (m, s, some (.ctx "useOnlyMapFont" e))
  | .ok (useOnly, s) =>
  let m := { m with UseOnlyMapFont := useOnly }
  match readAreas m s with
  | (m, s, some e) => (m, s, some (.ctx "areas" e))
  | (m, s, none) =>
  match readRoomIdHash m s with
  | (m, s, some e) => (m, s, some (.ctx "mRoomIdHash" e))
  | (m, s, none) =>
  match readLabels m s with
  | (m, s, some e) => (m, s, some (.ctx "labels" e))
  | (m, s, none) =>
  match readRooms m s with
  | (m, s, some e) => (m, s, some (.ctx "rooms" e))
  | (m, s, none) => (m, s, none)

/-- `ParseMap`: run `parser.parse` on a fresh map; on success return the map,
on failure return only the error — the Go code returns `(nil, err)` and the
partially assembled `p.m` is dropped. -/
def ParseMap (s : Bytes) : Option MudletMap × Option Err :=
  match parse NewMudletMap s with
  | (m, _, none) => (some m, none)
  | (_, _, some e) => (none, some e)

/-! Test-fixture builders: big-endian encoders used only to assemble concrete
input streams for the theorems (the inverse direction of the reader; the Go
repository has no writer). -/

/-- A byte from a `Nat`, reduced mod 256. -/
def byt (n : Nat) : Byte := ⟨n % 256, Nat.mod_lt _ (by norm_num)⟩

/-- Big-endian 4-byte encoding of a `Nat` (mod 2^32). -/
def e32n (n : Nat) : Bytes := [byt (n / 16777216), byt (n / 65536), byt (n / 256), byt n]

/-- Big-endian 4-byte two's-complement encoding of an `Int`. -/
def e32 (i : Int) : Bytes := e32n ((i % 4294967296).toNat)

/-- Big-endian 2-byte encoding of a `Nat` (mod 2^16). -/
def e16n (n : Nat) : Bytes := [byt (n / 256), byt n]

/-- Eight zero bytes: a double whose bit pattern is zero. -/
def d64z : Bytes := List.replicate 8 (0 : Byte)

/-- The `0xFFFFFFFF` absent-string sentinel. -/
def qnull : Bytes := [255, 255, 255, 255]

/-- Wire form of a QString with the given code units. -/
def encQStr (u : QStr) : Bytes :=
  e32n (2 * u.length) ++ (u.map (fun c => e16n c.val)).flatten

/-- Eleven zero bytes: a QColor record that decodes to the all-zero `Color`. -/
def colorZ : Bytes := List.replicate 11 (0 : Byte)

/-- A minimal QFont record: two absent strings and zero-valued fields. -/
def fontBytes : Bytes :=
  qnull ++ qnull ++ d64z ++ e32n 0 ++ [0] ++ e16n 0 ++ [0] ++ [0] ++ [0]
    ++ e16n 0 ++ [0] ++ e32n 0 ++ e32n 0 ++ [0] ++ [0]

/-- Header of a map file with the given version and every global table empty:
version, envColors, areaNames, customEnvColors, roomDbHashToRoomId, userData,
font, fudge factor, font-only flag, areas, roomIdHash, labels — ending exactly
at the Rooms-section boundary. -/
def hdrStream (v : Int) : Bytes :=
  e32 v ++ e32n 0 ++ e32n 0 ++ e32n 0 ++ e32n 0 ++ e32n 0 ++ fontBytes
    ++ d64z ++ [0] ++ e32n 0 ++ e32n 0 ++ e32n 0

/-- Wire form of a complete v20 room with id 1, area 5, all exits `NoExit`,
weight 1 and every collection empty. -/
def room1Bytes : Bytes :=
  e32 1 ++ e32 5 ++ e32 0 ++ e32 0 ++ e32 0
    ++ (List.replicate 12 (e32 (-1))).flatten
    ++ e32 0 ++ e32 1 ++ qnull ++ [0]
    ++ e32n 0 ++ qnull ++ e32n 0
    ++ e32n 0 ++ e32n 0 ++ e32n 0 ++ e32n 0 ++ e32n 0
    ++ e32n 0 ++ e32n 0 ++ e32n 0

/-- Claim C1 input: a v20 stream with one complete room followed by a second
room whose body is cut off after two bytes. -/
def c1Stream : Bytes := hdrStream 20 ++ room1Bytes ++ e32 2 ++ [0, 0]

/-- Claim C2 input: a well-formed empty map whose version field is -1. -/
def c2Stream : Bytes := hdrStream (-1)

/-- Claim C7 input: a well-formed v20 stream exhausted exactly at the
Rooms-section boundary. -/
def c7Stream : Bytes := hdrStream 20

/-- Wire form (pre-v21 label shape) of a label with id 7 and all other fields
zero; the pixmap presence marker is followed by no PNG signature. -/
def label7Bytes : Bytes :=
  e32 7 ++ d64z ++ d64z ++ d64z ++ d64z ++ d64z ++ d64z ++ d64z
    ++ qnull ++ colorZ ++ colorZ ++ e32n 0 ++ [0] ++ [0]

/-- Wire form of a v21 area body with every collection empty. -/
def areaBodyV21Bytes : Bytes :=
  e32n 0 ++ e32n 0 ++ e32n 0 ++ [0]
    ++ e32 0 ++ e32 0 ++ e32 0 ++ e32 0 ++ e32 0 ++ e32 0
    ++ d64z ++ d64z ++ d64z
    ++ e32n 0 ++ e32n 0 ++ e32n 0 ++ e32n 0
    ++ d64z ++ d64z ++ d64z
    ++ [0] ++ e32 0 ++ d64z ++ e32n 0 ++ e32n 0

/-- Claim C8 input: a v21 stream with one area (id 1, empty area-owned label
list) and one map-level label-table entry for area 1 holding the single label
`label7Bytes`; no rooms. -/
def c8Stream : Bytes :=
  e32 21 ++ e32n 0
    ++ e32n 1 ++ e32 1 ++ qnull
    ++ e32n 0 ++ e32n 0 ++ e32n 0 ++ fontBytes ++ d64z ++ [0]
    ++ e32n 1 ++ e32 1 ++ areaBodyV21Bytes
    ++ e32n 0
    ++ e32n 1 ++ e32 1 ++ e32 1 ++ label7Bytes

/-- The 4-byte PNG signature checked by `readQPixmap`. -/
def pngSig : Bytes := [0x89, 0x50, 0x4e, 0x47]

/-- The 4-byte `IEND` marker scanned for by `readPNG`. -/
def iendMark : Bytes := [0x49, 0x45, 0x4e, 0x44]

/-- Specification device: index of the first position of the stream whose
4-byte window equals the `IEND` marker. -/
def findIend : Bytes → Option Nat
  | b0 :: b1 :: b2 :: b3 :: rest =>
    if b0 = (0x49 : Byte) ∧ b1 = (0x45 : Byte) ∧ b2 = (0x4e : Byte) ∧ b3 = (0x44 : Byte)
    then some 0
    else (findIend (b1 :: b2 :: b3 :: rest)).map (· + 1)
  | _ => none

/-- An `Int` that fits in a signed 32-bit value, so that `e32` round-trips. -/
def wfI32 (i : Int) : Prop := -2147483648 ≤ i ∧ i < 2147483648

/-- A string short enough for its wire form to pass `ReadQString`'s ceiling. -/
def wfStr (u : QStr) : Prop := u.length ≤ 5000000

/-- Wire form of a v6–20 special-exit table body: each entry is
`(destinationRoomId, commandString)`. -/
def encSpecialOld (l : List (Int × QStr)) : Bytes :=
  (l.map (fun e => e32 e.1 ++ encQStr e.2)).flatten

/-- Wire form of a v21+ special-exit table body: each entry is
`(commandString, destinationRoomId)`. -/
def encSpecialNew (l : List (QStr × Int)) : Bytes :=
  (l.map (fun e => encQStr e.1 ++ e32 e.2)).flatten

/-- Claim C9 input: a v20 document whose single room references area 5, which
is absent from the areas mapping; no exits are set. -/
def c9Doc : MudletMap :=
  { Version := 20, Rooms := [(1, { NewMudletRoom 1 with Area := 5 })] }

/-- Witness input for claim C9: a v20 document whose single room has its north
exit pointing at missing room 999. -/
def c9WitnessDoc : MudletMap :=
  { Version := 20,
    Rooms := [(1, { NewMudletRoom 1 with Exits := 999 :: List.replicate 11 NoExit })] }

/-- Witness input for claim C8: an area that owns one label. -/
def c8WitnessMap : MudletMap :=
  { Areas := [(1, { NewMudletArea 1 [] with Labels := [{ ID := 3 }] })],
    Labels := [(1, [{ ID := 4 }])] }

/-! Round-trip lemmas: the fixture encoders feed the readers the value they
encode. -/

theorem readUInt32_e32n (n : Nat) (rest : Bytes) (h : n < 4294967296) :
    ReadUInt32 (e32n n ++ rest) = .ok (n, rest) := by
  simp only [e32n, byt, List.cons_append, List.nil_append, ReadUInt32]
  congr 1
  ext
  · omega
  · rfl

theorem readInt32_e32 (i : Int) (rest : Bytes) (h1 : -2147483648 ≤ i)
    (h2 : i < 2147483648) : ReadInt32 (e32 i ++ rest) = .ok (i, rest) := by
  have hlt : (i % 4294967296).toNat < 4294967296 := by omega
  have hv : toInt32 ((i % 4294967296).toNat) = i := by
    unfold toInt32; split <;> omega
  simp only [e32, ReadInt32, readUInt32_e32n _ _ hlt, hv]

theorem encUnits_length (u : QStr) :
    ((u.map (fun c => e16n c.val)).flatten).length = 2 * u.length := by
  induction u with
  | nil => rfl
  | cons c t ih =>
    rw [List.map_cons, List.flatten_cons, List.length_append, ih]
    simp only [e16n, List.length_cons, List.length_nil]
    omega

theorem utf16Units_enc (u : QStr) :
    utf16Units ((u.map (fun c => e16n c.val)).flatten) = u := by
  induction u with
  | nil => rfl
  | cons c t ih =>
    have hc := c.isLt
    simp only [List.map_cons, List.flatten_cons, e16n, byt, List.cons_append,
      List.nil_append, utf16Units, ih]
    congr 1
    simp only [Fin.ext_iff]
    omega

theorem readQString_enc (u : QStr) (rest : Bytes) (h : u.length ≤ 5000000) :
    ReadQString (encQStr u ++ rest) = .ok (u, rest) := by
  have hfl := encUnits_length u
  have hn : 2 * u.length < 4294967296 := by omega
  have ht : (((u.map (fun c => e16n c.val)).flatten) ++ rest).take (2 * u.length)
      = (u.map (fun c => e16n c.val)).flatten := by
    rw [← hfl]; exact List.take_left _ _
  have hd : (((u.map (fun c => e16n c.val)).flatten) ++ rest).drop (2 * u.length)
      = rest := by
    rw [← hfl]; exact List.drop_left _ _
  simp only [ReadQString, encQStr, List.append_assoc, readUInt32_e32n _ _ hn]
  rw [if_neg (by omega), if_neg (by omega),
    if_pos (by rw [List.length_append, hfl]; omega)]
  rw [ht, hd, utf16Units_enc]

theorem readPNGAux_spec (s : Bytes) : ∀ (acc : List Byte) (k : Nat),
    findIend s = some k → k + 8 ≤ s.length →
    readPNGAux acc s = (acc ++ s.take (k + 8), s.drop (k + 8), true) := by
  induction s with
  | nil => intro acc k h _; simp [findIend] at h
  | cons a t ih =>
    intro acc k h hlen
    rcases t with _ | ⟨b, _ | ⟨c, _ | ⟨d, rest⟩⟩⟩
    · simp [findIend] at h
    · simp [findIend] at h
    · simp [findIend] at h
    · by_cases hm : a = (0x49 : Byte) ∧ b = (0x45 : Byte) ∧ c = (0x4e : Byte) ∧ d = (0x44 : Byte)
      · have hk : k = 0 := by
          rw [findIend, if_pos hm] at h
          exact (Option.some.injEq _ _ ▸ h).symm
        subst hk
        have hr : 4 ≤ rest.length := by
          simp only [List.length_cons] at hlen; omega
        rw [readPNGAux, if_pos hm, if_pos hr]
        have htake : (a :: b :: c :: d :: rest).take 8 = [a, b, c, d] ++ rest.take 4 := by
          simp [List.take_succ_cons]
        have hdrop : (a :: b :: c :: d :: rest).drop 8 = rest.drop 4 := by
          simp [List.drop_succ_cons]
        rw [htake, hdrop, List.append_assoc]
      · rw [findIend, if_neg hm] at h
        rcases hfi : findIend (b :: c :: d :: rest) with _ | k'
        · rw [hfi] at h; simp at h
        · rw [hfi] at h
          obtain rfl : k' + 1 = k := by simpa using h
          rw [readPNGAux, if_neg hm]
          have hlen' : k' + 8 ≤ (b :: c :: d :: rest).length := by
            simp only [List.length_cons] at hlen ⊢; omega
          rw [ih _ _ hfi hlen']
          have htake : (a :: b :: c :: d :: rest).take (k' + 1 + 8)
              = a :: (b :: c :: d :: rest).take (k' + 8) := by
            simp [List.take_succ_cons, Nat.add_right_comm k' 1 8]
          have hdrop : (a :: b :: c :: d :: rest).drop (k' + 1 + 8)
              = (b :: c :: d :: rest).drop (k' + 8) := by
            simp [List.drop_succ_cons, Nat.add_right_comm k' 1 8]
          rw [htake, hdrop, List.append_assoc]
          rfl

theorem pngSigSum_iff (b0 b1 b2 b3 : Byte) :
    b0.val * 16777216 + b1.val * 65536 + b2.val * 256 + b3.val = 2303741511 ↔
      [b0, b1, b2, b3] = pngSig := by
  have h0 := b0.isLt; have h1 := b1.isLt; have h2 := b2.isLt; have h3 := b3.isLt
  have hv : ((0x89 : Byte)).val = 137 ∧ ((0x50 : Byte)).val = 80
      ∧ ((0x4e : Byte)).val = 78 ∧ ((0x47 : Byte)).val = 71 := by decide
  simp only [pngSig, List.cons.injEq, and_true, Fin.ext_iff, hv.1, hv.2.1, hv.2.2.1, hv.2.2.2]
  omega

/-! Claim theorems. -/

/-- Claim C5: for every input whose 4-byte length prefix is the all-ones
sentinel `0xFFFFFFFF`, `ReadQString` returns the empty string and consumes
exactly the 4 prefix bytes — whatever follows the prefix is returned
untouched, so no further read is performed. -/
theorem spec_c5_qstring_sentinel (rest : Bytes) :
    ReadQString (qnull ++ rest) = .ok ([], rest) := by
  have hv : ((255 : Byte)).val = 255 := rfl
  simp only [qnull, List.cons_append, List.nil_append, ReadQString, ReadUInt32, hv]
  norm_num

/-- Claim C6: for every non-sentinel 4-byte length prefix that is odd or
exceeds 10,000,000, `ReadQString` fails with the invalid-length
(`MalformedField`) error, for any suffix whatsoever — in particular for the
empty suffix, so the payload is never read. -/
theorem spec_c6_qstring_bad_length (n : Nat) (rest : Bytes) (h32 : n < 4294967296)
    (hsent : n ≠ 4294967295) (hbad : n % 2 = 1 ∨ n > 10000000) :
    ReadQString (e32n n ++ rest) = .error (.invalidQStringLength n) := by
  simp only [ReadQString, readUInt32_e32n _ _ h32]
  rw [if_neg hsent, if_pos (by omega)]

/-- Witness for claim C6 at the odd prefix 3 with no payload bytes at all. -/
theorem spec_c6_qstring_bad_length_witness :
    (3 : Nat) % 2 = 1 ∧ ReadQString (e32n 3 ++ []) = .error (.invalidQStringLength 3) :=
  ⟨rfl, spec_c6_qstring_bad_length 3 [] (by norm_num) (by norm_num) (Or.inl rfl)⟩

/-- Claim C10: `MudletRoom.GetExit` is total: any direction outside `[0, 12)`
yields the `NoExit` sentinel, and an in-range direction yields the
corresponding slot of the (length-12) exits array. -/
theorem spec_c10_getexit_total :
    (∀ (r : MudletRoom) (d : Int), d < 0 ∨ 12 ≤ d → r.GetExit d = NoExit) ∧
    (∀ (r : MudletRoom) (d : Int) (h12 : r.Exits.length = 12) (h0 : 0 ≤ d) (hd : d < 12),
      r.GetExit d = r.Exits.get ⟨d.toNat, by omega⟩) := by
  constructor
  · intro r d hd
    unfold MudletRoom.GetExit
    rw [if_pos (by omega)]
  · intro r d h12 h0 hd
    unfold MudletRoom.GetExit
    rw [if_neg (by omega)]
    rw [List.getD_eq_getElem _ _ (by omega)]
    simp [List.get_eq_getElem]

/-- Witness for claim C10: direction 13 on a fresh room is `NoExit`, and
direction 0 reads the first slot. -/
theorem spec_c10_getexit_total_witness :
    (NewMudletRoom 1).GetExit 13 = NoExit ∧
      (NewMudletRoom 1).GetExit 0 = (NewMudletRoom 1).Exits.get ⟨0, by decide⟩ :=
  ⟨spec_c10_getexit_total.1 (NewMudletRoom 1) 13 (Or.inr (by norm_num)),
   spec_c10_getexit_total.2 (NewMudletRoom 1) 0 (by decide) (by decide) (by decide)⟩

set_option maxRecDepth 100000 in
/-- Claim C2 counterexample: a complete stream whose version field is -1 (a
non-positive version) parses successfully — no `UnsupportedVersion` failure
occurs at the first field or anywhere else, refuting the claim that parsing
fails for non-positive versions. -/
theorem spec_c2_cex :
    (ParseMap c2Stream).2 = none ∧
    (ParseMap c2Stream).1.map (fun m => m.Version) = some (-1) := by
  exact ⟨by decide, by decide⟩

/-- Claim C2 (amended): the parser performs no version validation at all; a
non-positive version is instead reported after the fact by `ValidateMap` as a
non-fatal `invalid_version` validation entry. -/
theorem spec_c2_nonpositive_version_validated (m : MudletMap) (h : m.Version ≤ 0) :
    ∃ e ∈ ValidateMap m, e.Etype = "invalid_version" := by
  have hm : ValidationError.mk "invalid_version"
      ("non-positive version: " ++ toString m.Version) 0 ∈ ValidateMap m := by
    unfold ValidateMap
    rw [if_pos h]
    exact List.mem_append_left _ (List.mem_singleton_self _)
  exact ⟨_, hm, rfl⟩

/-- Witness for claim C2 (amended) on the fresh map, whose version is 0. -/
theorem spec_c2_nonpositive_version_validated_witness :
    NewMudletMap.Version ≤ 0 ∧ ∃ e ∈ ValidateMap NewMudletMap, e.Etype = "invalid_version" :=
  ⟨by decide, spec_c2_nonpositive_version_validated NewMudletMap (by decide)⟩

set_option maxRecDepth 100000 in
/-- Claim C8 counterexample: a parsed v21 document in which area 1 exists with
an empty area-owned label list while the map-level table has one label for
area 1.  The claim says that at version ≥ 21 the area-owned (empty) list is
returned; `GetLabelsForArea` actually returns the non-empty map-level list. -/
theorem spec_c8_cex :
    (ParseMap c8Stream).2 = none ∧
    (ParseMap c8Stream).1.map (fun m => m.Version) = some 21 ∧
    (ParseMap c8Stream).1.map (fun m => (alookup m.Areas 1).map (fun a => a.Labels))
      = some (some []) ∧
    (ParseMap c8Stream).1.map (fun m => m.GetLabelsForArea 1) = some [{ ID := 7 }] := by
  exact ⟨by decide, by decide, by decide, by decide⟩

/-- Claim C8 (amended): `GetLabelsForArea` prefers the area-owned label list
exactly when the area exists and that list is non-empty — independent of the
format version — and otherwise returns the map-level `labelsByArea` entry
(empty when absent). -/
theorem spec_c8_labels_preference :
    (∀ (m : MudletMap) (areaID : Int) (area : MudletArea),
      alookup m.Areas areaID = some area → area.Labels ≠ [] →
      m.GetLabelsForArea areaID = area.Labels) ∧
    (∀ (m : MudletMap) (areaID : Int) (area : MudletArea),
      alookup m.Areas areaID = some area → area.Labels = [] →
      m.GetLabelsForArea areaID = (alookup m.Labels areaID).getD []) ∧
    (∀ (m : MudletMap) (areaID : Int),
      alookup m.Areas areaID = none →
      m.GetLabelsForArea areaID = (alookup m.Labels areaID).getD []) := by
  refine ⟨?_, ?_, ?_⟩
  · intro m areaID area h hne
    simp only [MudletMap.GetLabelsForArea, h]
    rw [if_pos (List.length_pos.mpr hne)]
  · intro m areaID area h he
    simp only [MudletMap.GetLabelsForArea, h]
    rw [if_neg (by simp [he])]
  · intro m areaID h
    simp only [MudletMap.GetLabelsForArea, h]

/-- Witness for claim C8 (amended): on `c8WitnessMap`, area 1 owns label 3 and
the map-level table holds label 4; the area-owned list wins. -/
theorem spec_c8_labels_preference_witness :
    alookup c8WitnessMap.Areas 1
        = some { NewMudletArea 1 [] with Labels := [{ ID := 3 }] } ∧
      c8WitnessMap.GetLabelsForArea 1 = [{ ID := 3 }] :=
  ⟨by decide,
   spec_c8_labels_preference.1 c8WitnessMap 1
     { NewMudletArea 1 [] with Labels := [{ ID := 3 }] } (by decide) (by decide)⟩

/-- Claim C9 counterexample: on `c9Doc` the single room's `areaId` (5) is
absent from the areas mapping, yet `ValidateMap` reports no violation at all —
the claimed areaId-membership check does not exist in the code. -/
theorem spec_c9_cex :
    ValidateMap c9Doc = [] ∧ alookup c9Doc.Areas (5 : Int) = none ∧
      (alookup c9Doc.Rooms 1).map (fun r => r.Area) = some 5 := by
  exact ⟨by decide, by decide, by decide⟩

/-- Claim C9 (amended): `ValidateMap` reports a `broken_exit` violation for
every room whose non-sentinel exit target is absent from the rooms mapping
(and an `invalid_version` entry for a non-positive version); it performs no
areaId-membership check, and it only returns the advisory list — being a pure
function it leaves the document unchanged. -/
theorem spec_c9_broken_exit_reported (m : MudletMap) (idr : Int × MudletRoom)
    (i : Nat) (target : Int) (hmem : idr ∈ m.Rooms)
    (hget : idr.2.Exits[i]? = some target) (hne : target ≠ NoExit)
    (hlook : alookup m.Rooms target = none) :
    ∃ e ∈ ValidateMap m, e.Etype = "broken_exit" ∧ e.RoomID = idr.2.ID := by
  have henum : (i, target) ∈ idr.2.Exits.enum := by
    rw [List.mem_enum_iff_getElem?]; exact hget
  have hin : ValidationError.mk "broken_exit"
      ("room " ++ toString idr.2.ID ++ " has " ++ ExitDirectionNames.getD i ""
        ++ " exit to missing room " ++ toString target) idr.2.ID ∈ ValidateMap m := by
    unfold ValidateMap
    refine List.mem_append_right _ ?_
    refine List.mem_flatten.mpr ⟨_, List.mem_map_of_mem _ hmem, ?_⟩
    refine List.mem_filterMap.mpr ⟨(i, target), henum, ?_⟩
    rw [if_pos ⟨hne, hlook⟩]
  exact ⟨_, hin, rfl, rfl⟩

/-- Witness for claim C9 (amended): on `c9WitnessDoc`, room 1's north exit
points at missing room 999 and a `broken_exit` entry for room 1 is reported. -/
theorem spec_c9_broken_exit_reported_witness :
    (1, { NewMudletRoom 1 with Exits := 999 :: List.replicate 11 NoExit })
        ∈ c9WitnessDoc.Rooms ∧
      ∃ e ∈ ValidateMap c9WitnessDoc, e.Etype = "broken_exit" ∧ e.RoomID = 1 :=
  ⟨by decide,
   spec_c9_broken_exit_reported c9WitnessDoc
     (1, { NewMudletRoom 1 with Exits := 999 :: List.replicate 11 NoExit })
     0 999 (by decide) (by decide) (by decide) (by decide)⟩

set_option maxRecDepth 100000 in
/-- Claim C1 counterexample: `c1Stream` truncates mid-Rooms-section after one
fully decoded room.  The parser state at the failure indeed holds room 1, but
`ParseMap` returns no document at all — `(nil, error)` — so the partial result
is discarded, refuting the claim that the partially-built document is returned
alongside the error. -/
theorem spec_c1_cex :
    ParseMap c1Stream = (none, some (.ctx "rooms" (.ctx "room 2" .truncated))) ∧
    (parse NewMudletMap c1Stream).1.Rooms.length = 1 ∧
    (alookup (parse NewMudletMap c1Stream).1.Rooms 1).isSome = true := by
  exact ⟨by decide, by decide, by decide⟩

/-- Claim C1 (amended): a field-level decode failure inside Areas or Rooms
(or any other section) aborts the parse with a descriptive wrapped error, and
`ParseMap` then returns no document: the partially-built document held in the
parser state is discarded, never returned to the caller. -/
theorem spec_c1_error_discards_doc (s : Bytes) (e : Err)
    (h : (parse NewMudletMap s).2.2 = some e) :
    ParseMap s = (none, some e) := by
  unfold ParseMap
  rcases hp : parse NewMudletMap s with ⟨m', s', oe⟩
  rw [hp] at h
  simp only at h
  subst h
  rfl

set_option maxRecDepth 100000 in
/-- Witness for claim C1 (amended) on the truncated stream `c1Stream`. -/
theorem spec_c1_error_discards_doc_witness :
    (parse NewMudletMap c1Stream).2.2
        = some (.ctx "rooms" (.ctx "room 2" .truncated)) ∧
      ParseMap c1Stream = (none, some (.ctx "rooms" (.ctx "room 2" .truncated))) :=
  ⟨by decide, spec_c1_error_discards_doc c1Stream _ (by decide)⟩

set_option maxRecDepth 100000 in
/-- Claim C7: at each room boundary `readRooms` peeks for at least 4 bytes
and, when unavailable, stops as normal termination (no error, map unchanged);
in particular a stream exhausted exactly at the Rooms-section boundary
(`c7Stream`) parses successfully into a document whose rooms mapping is
empty. -/
theorem spec_c7_rooms_termination :
    (∀ (m : MudletMap) (s : Bytes), s.length < 4 → readRooms m s = (m, s, none)) ∧
    ((ParseMap c7Stream).2 = none ∧
      (ParseMap c7Stream).1.map (fun m => m.Rooms) = some []) := by
  constructor
  · intro m s h
    unfold readRooms
    rw [readRoomsLoop]
    rw [if_pos h]
  · exact ⟨by decide, by decide⟩

/-- Witness for claim C7's universal part: the empty stream at the Rooms
boundary terminates normally. -/
theorem spec_c7_rooms_termination_witness :
    readRooms NewMudletMap [] = (NewMudletMap, [], none) :=
  spec_c7_rooms_termination.1 NewMudletMap [] (by decide)

theorem readSpecialExitsOldLoop_enc : ∀ (l : List (Int × QStr)) (room : MudletRoom)
    (rest : Bytes), (∀ e ∈ l, wfI32 e.1 ∧ wfStr e.2) →
    readSpecialExitsOldLoop l.length room (encSpecialOld l ++ rest)
      = .ok (l.foldl (fun r e =>
          { r with SpecialExits := upsert r.SpecialExits (stripLock e.2) e.1 }) room, rest) := by
  intro l
  induction l with
  | nil =>
    intro room rest _
    simp [encSpecialOld, readSpecialExitsOldLoop]
  | cons e t ih =>
    intro room rest h
    have he := h e (List.mem_cons_self e t)
    have hrest := fun x hx => h x (List.mem_cons_of_mem e hx)
    have hs : encSpecialOld (e :: t) ++ rest
        = e32 e.1 ++ (encQStr e.2 ++ (encSpecialOld t ++ rest)) := by
      simp [encSpecialOld, List.append_assoc]
    simp only [List.length_cons, hs, readSpecialExitsOldLoop,
      readInt32_e32 _ _ he.1.1 he.1.2, readQString_enc _ _ he.2]
    rw [ih _ rest hrest, List.foldl_cons]

theorem readSpecialExitsNewLoop_enc : ∀ (l : List (QStr × Int)) (room : MudletRoom)
    (rest : Bytes), (∀ e ∈ l, wfStr e.1 ∧ wfI32 e.2) →
    readSpecialExitsNewLoop l.length room (encSpecialNew l ++ rest)
      = .ok (l.foldl (fun r e =>
          { r with SpecialExits := upsert r.SpecialExits e.1 e.2 }) room, rest) := by
  intro l
  induction l with
  | nil =>
    intro room rest _
    simp [encSpecialNew, readSpecialExitsNewLoop]
  | cons e t ih =>
    intro room rest h
    have he := h e (List.mem_cons_self e t)
    have hrest := fun x hx => h x (List.mem_cons_of_mem e hx)
    have hs : encSpecialNew (e :: t) ++ rest
        = encQStr e.1 ++ (e32 e.2 ++ (encSpecialNew t ++ rest)) := by
      simp [encSpecialNew, List.append_assoc]
    simp only [List.length_cons, hs, readSpecialExitsNewLoop,
      readQString_enc _ _ he.1, readInt32_e32 _ _ he.2.1 he.2.2]
    rw [ih _ rest hrest, List.foldl_cons]

/-- Claim C4: the special-exit table of a room decoded at version `v` is
absent below v6 (no bytes consumed, no entries stored); from v6 each wire
entry is `(destinationRoomId, commandString)` (the command's lock prefix is
stripped before storing); from v21 each wire entry is
`(commandString, destinationRoomId)` — the mapping direction inverts at
v21. -/
theorem spec_c4_special_exits_versioned :
    (∀ (v : Int) (room : MudletRoom) (s : Bytes), v < 6 →
      readSpecialExits v room s = .ok (room, s)) ∧
    (∀ (v : Int) (room : MudletRoom) (l : List (Int × QStr)) (rest : Bytes),
      6 ≤ v → v < 21 → (l.length : Int) < 2147483648 →
      (∀ e ∈ l, wfI32 e.1 ∧ wfStr e.2) →
      readSpecialExits v room (e32 (l.length : Int) ++ (encSpecialOld l ++ rest))
        = .ok (l.foldl (fun r e =>
            { r with SpecialExits := upsert r.SpecialExits (stripLock e.2) e.1 }) room,
          rest)) ∧
    (∀ (v : Int) (room : MudletRoom) (l : List (QStr × Int)) (rest : Bytes),
      21 ≤ v → (l.length : Int) < 2147483648 →
      (∀ e ∈ l, wfStr e.1 ∧ wfI32 e.2) →
      readSpecialExits v room (e32 (l.length : Int) ++ (encSpecialNew l ++ rest))
        = .ok (l.foldl (fun r e =>
            { r with SpecialExits := upsert r.SpecialExits e.1 e.2 }) room, rest)) := by
  refine ⟨?_, ?_, ?_⟩
  · intro v room s hv
    unfold readSpecialExits
    rw [if_neg (by omega), if_neg (by omega)]
  · intro v room l rest h6 h21 hlen h
    unfold readSpecialExits
    rw [if_neg (by omega), if_pos (by omega)]
    simp only [readInt32_e32 _ _ (by omega) hlen, Int.toNat_natCast]
    exact readSpecialExitsOldLoop_enc l room rest h
  · intro v room l rest h21 hlen h
    unfold readSpecialExits
    rw [if_pos (by omega)]
    simp only [readInt32_e32 _ _ (by omega) hlen, Int.toNat_natCast]
    exact readSpecialExitsNewLoop_enc l room rest h

/-- Witness for claim C4: at version 21 a single-entry table whose wire entry
is the command `[65]` followed by destination 7 stores `[65] ↦ 7`. -/
theorem spec_c4_special_exits_versioned_witness :
    (21 : Int) ≤ 21 ∧
      readSpecialExits 21 (NewMudletRoom 1)
          (e32 (([(([65] : QStr), (7 : Int))].length : Int))
            ++ (encSpecialNew [([65], 7)] ++ []))
        = .ok ({ NewMudletRoom 1 with
                 SpecialExits := upsert (NewMudletRoom 1).SpecialExits [65] 7 }, []) :=
  ⟨le_refl 21,
   spec_c4_special_exits_versioned.2.2 21 (NewMudletRoom 1) [([65], 7)] []
     (le_refl 21) (by norm_num)
     (by
       intro e he
       simp at he
       rw [he]
       exact ⟨by unfold wfStr; decide, by unfold wfI32; exact ⟨by decide, by decide⟩⟩)⟩

theorem readQPixmap_png (m0 m1 m2 m3 : Byte) (S : Bytes) (k : Nat)
    (hsig : S.take 4 = pngSig) (hfind : findIend S = some k) (hlen : k + 8 ≤ S.length) :
    readQPixmap (m0 :: m1 :: m2 :: m3 :: S) = .ok (some (S.take (k + 8)), S.drop (k + 8)) := by
  rcases S with _ | ⟨b0, _ | ⟨b1, _ | ⟨b2, _ | ⟨b3, t⟩⟩⟩⟩
  · simp [pngSig] at hsig
  · simp [pngSig] at hsig
  · simp [pngSig] at hsig
  · simp [pngSig] at hsig
  · have htake : (b0 :: b1 :: b2 :: b3 :: t).take 4 = [b0, b1, b2, b3] := rfl
    rw [htake] at hsig
    have hu : ReadUInt32 (m0 :: m1 :: m2 :: m3 :: (b0 :: b1 :: b2 :: b3 :: t))
        = .ok (m0.val * 16777216 + m1.val * 65536 + m2.val * 256 + m3.val,
               b0 :: b1 :: b2 :: b3 :: t) := rfl
    simp only [readQPixmap, hu]
    rw [if_pos ((pngSigSum_iff b0 b1 b2 b3).mpr hsig)]
    simp only [readPNG, readPNGAux_spec _ [] k hfind hlen, List.nil_append]

theorem readQPixmap_notpng (m0 m1 m2 m3 b0 b1 b2 b3 : Byte) (t : Bytes)
    (h : [b0, b1, b2, b3] ≠ pngSig) :
    readQPixmap (m0 :: m1 :: m2 :: m3 :: b0 :: b1 :: b2 :: b3 :: t)
      = .ok (none, b0 :: b1 :: b2 :: b3 :: t) := by
  have hu : ReadUInt32 (m0 :: m1 :: m2 :: m3 :: (b0 :: b1 :: b2 :: b3 :: t))
      = .ok (m0.val * 16777216 + m1.val * 65536 + m2.val * 256 + m3.val,
             b0 :: b1 :: b2 :: b3 :: t) := rfl
  simp only [readQPixmap, hu]
  rw [if_neg (fun hc => h ((pngSigSum_iff b0 b1 b2 b3).mp hc))]

/-- Claim C3: after the 4-byte pixmap presence marker, when the stream starts
with the PNG signature and its first `IEND` window sits right after the
payload, the scan returns exactly the bytes from the signature through the
4-byte trailer checksum inclusive, leaving the cursor 8 bytes past the start
of the end-marker occurrence (precisely `rest` remains); and when the 4 bytes
after the marker are not the PNG signature, no image is produced and nothing
beyond the marker is consumed. -/
theorem spec_c3_embedded_image_scan :
    (∀ (m0 m1 m2 m3 : Byte) (payload crc rest : Bytes),
      crc.length = 4 →
      findIend (pngSig ++ payload ++ iendMark ++ crc ++ rest) = some (4 + payload.length) →
      readQPixmap (m0 :: m1 :: m2 :: m3 :: (pngSig ++ payload ++ iendMark ++ crc ++ rest))
        = .ok (some (pngSig ++ payload ++ iendMark ++ crc), rest)) ∧
    (∀ (m0 m1 m2 m3 b0 b1 b2 b3 : Byte) (t : Bytes),
      [b0, b1, b2, b3] ≠ pngSig →
      readQPixmap (m0 :: m1 :: m2 :: m3 :: b0 :: b1 :: b2 :: b3 :: t)
        = .ok (none, b0 :: b1 :: b2 :: b3 :: t)) := by
  constructor
  · intro m0 m1 m2 m3 payload crc rest hcrc hfind
    have hsig : (pngSig ++ payload ++ iendMark ++ crc ++ rest).take 4 = pngSig := by
      have h1 : pngSig ++ payload ++ iendMark ++ crc ++ rest
          = pngSig ++ (payload ++ (iendMark ++ (crc ++ rest))) := by
        simp [List.append_assoc]
      rw [h1]
      exact List.take_left' rfl
    have hA : (pngSig ++ payload ++ iendMark ++ crc).length = 4 + payload.length + 8 := by
      simp only [List.length_append]
      simp [pngSig, iendMark, hcrc]
    have hlen : 4 + payload.length + 8
        ≤ (pngSig ++ payload ++ iendMark ++ crc ++ rest).length := by
      rw [List.length_append, hA]
      omega
    rw [readQPixmap_png m0 m1 m2 m3 _ _ hsig hfind hlen]
    rw [List.take_left' hA, List.drop_left' hA]
  · intro m0 m1 m2 m3 b0 b1 b2 b3 t h
    exact readQPixmap_notpng m0 m1 m2 m3 b0 b1 b2 b3 t h

/-- Witness for claim C3: a one-byte payload, a concrete CRC and one trailing
byte; also a witness of the non-PNG branch. -/
theorem spec_c3_embedded_image_scan_witness :
    readQPixmap ((0 : Byte) :: 0 :: 0 :: 0
        :: (pngSig ++ [0x11] ++ iendMark ++ [0xAA, 0xBB, 0xCC, 0xDD] ++ [0x99]))
      = .ok (some (pngSig ++ [0x11] ++ iendMark ++ [0xAA, 0xBB, 0xCC, 0xDD]), [0x99]) ∧
    readQPixmap ((0 : Byte) :: 0 :: 0 :: 0 :: 1 :: 2 :: 3 :: 4 :: [])
      = .ok (none, (1 : Byte) :: 2 :: 3 :: 4 :: []) :=
  ⟨spec_c3_embedded_image_scan.1 0 0 0 0 [0x11] [0xAA, 0xBB, 0xCC, 0xDD] [0x99]
     (by decide) (by decide),
   spec_c3_embedded_image_scan.2 0 0 0 0 1 2 3 4 [] (by decide)⟩

end Mudlet
